import Mathlib

/-!
Verification of the move selector of the Underfish_V2 repository.

The repository contains two implementations of the same selector,
`pick_worst_survivable_move`, one in `main.py` and one in `bot.py`.
This file gives a shallow embedding of both, faithful to the Python
source:

* `Board` is the selector's observable view of a python-chess board:
  its legal-move list, its check flag, and the history of moves pushed
  onto it since it was created.  Chess rules themselves are out of
  scope (the selector treats legality and evaluation as capabilities).
* `Store` models Python object identity: boards live at indices of a
  store, `Store.copy` models `board.copy()` (a fresh object), and
  `Store.push` models the in-place mutation `temp.push(move)`.  This
  lets the no-mutation claim be stated as a real frame property.
* `Evaluator` bundles the two shapes of engine query the selector
  makes: `analyse` models `engine.analyse(board, Limit(depth))`
  followed by `_get_cp_and_mate_from_info` (an `Evaluation`, or `none`
  when the call raises), and `best` models
  `engine.analyse(board, Limit(depth), multipv=1)` followed by
  `best_info[0]["pv"][0]` (`none` when any step raises).
* `rng : Nat` models the state of Python's global random generator at
  the single point where `random.choice(legal_moves)` could be called;
  `randomChoice` picks the corresponding element of the list.
* The selector returns a `SelOut`: the chosen move (or `none`), the
  final store, and the trace of evaluator queries that were issued.
-/

/-- Moves are abstract identifiers; the selector never inspects them. -/
abbrev Move := Nat

/-- Observable state of a python-chess board object, as far as the
selector and the evaluator are concerned: `legal` is `list(board.legal_moves)`,
`check` is `board.is_check()`, and `hist` records the moves pushed onto this
object since its creation (so that the evaluator can depend on them). -/
structure Board where
  legal : List Move
  check : Bool
  hist : List Move
deriving DecidableEq, Inhabited, Repr

/-- In-place `board.push(move)`: the object accumulates the pushed move. -/
def Board.push (b : Board) (m : Move) : Board :=
  { b with hist := b.hist ++ [m] }

/-- A heap of board objects, addressed by index, modelling Python object
identity and aliasing. -/
structure Store where
  boards : List Board
deriving DecidableEq, Repr

/-- Dereference a board object. -/
def Store.get (s : Store) (i : Nat) : Board :=
  s.boards.getD i default

/-- The Python `board.copy()`: allocate a fresh object holding the same
value, returning the new store and the fresh object's address. -/
def Store.copy (s : Store) (i : Nat) : Store × Nat :=
  (⟨s.boards ++ [s.get i]⟩, s.boards.length)

/-- The Python `temp.push(move)`: mutate the object at address `i` in
place. -/
def Store.push (s : Store) (i : Nat) (m : Move) : Store :=
  ⟨s.boards.set i ((s.get i).push m)⟩

/-- Result of `_get_cp_and_mate_from_info`: exactly one of a centipawn
value `(cp, None)`, a mate count `(None, mate)`, or `(None, None)` when no
usable score could be extracted. -/
inductive Evaluation where
  | centipawn (v : Int)
  | mateIn (n : Int)
  | unknownScore
deriving DecidableEq, Repr

/-- One engine query issued by the selector, recorded in the trace. -/
inductive Query where
  | analyseQ (b : Board) (depth : Nat)
  | bestQ (b : Board) (depth : Nat)
deriving DecidableEq, Repr

/-- The engine capability.  `analyse b d` models
`_get_cp_and_mate_from_info(engine.analyse(b, Limit(depth=d)), color)`,
with `none` when `engine.analyse` raises.  `best b d` models
`engine.analyse(b, Limit(depth=d), multipv=1)[0]["pv"][0]`, with `none`
when the call or the lookup raises.  Both are functions, so an
`Evaluator` value is deterministic by construction. -/
structure Evaluator where
  analyse : Board → Nat → Option Evaluation
  best : Board → Nat → Option Move

/-- The keyword parameters of `pick_worst_survivable_move`. -/
structure Config where
  evalDepth : Nat
  maxMateDepth : Nat
  cpCapOneMove : Int
  cpCapTotal : Int

/-- Defaults of `main.py` (`eval_depth=16, max_mate_depth=25,
cp_cap_one_move=550, cp_cap_total=-925`). -/
def mainDefaults : Config := ⟨16, 25, 550, -925⟩

/-- Defaults of `bot.py` (`eval_depth=10`, the rest as in `main.py`). -/
def botDefaults : Config := ⟨10, 25, 550, -925⟩

/-- The Python `random.choice(l)` on a non-empty list, with the random
draw supplied externally as an index. -/
def randomChoice (l : List Move) (r : Nat) : Move :=
  l.getD (r % l.length) 0

/-- Result of one selector call: the chosen move (or `none`), the final
store, and the evaluator queries issued, in order. -/
structure SelOut where
  result : Option Move
  store : Store
  trace : List Query
deriving DecidableEq, Repr

/-- Accumulator of the per-move scan loop of
`pick_worst_survivable_move`: the store (mutated by `copy`/`push`), the
`move_candidates` list, the `mate_losses` counter, the
`winning_mate_move` slot, and the query trace. -/
structure ScanSt where
  store : Store
  cands : List (Int × Move)
  mateLosses : Nat
  winning : Option Move
  trace : List Query

/-- One iteration of the scan loop: `temp = board.copy();
temp.push(move); info = engine.analyse(temp, Limit(depth=max_mate_depth))`,
then the mate / unknown / drop classification of the loop body.  The
query is recorded even when the engine call raises (`none`), since the
call was issued. -/
def scanStep (ev : Evaluator) (cfg : Config) (bid : Nat) (curCp : Int)
    (st : ScanSt) (m : Move) : ScanSt :=
  let c := st.store.copy bid
  let s2 := c.1.push c.2 m
  let temp := s2.get c.2
  let base : ScanSt :=
    { st with store := s2,
              trace := st.trace ++ [Query.analyseQ temp cfg.maxMateDepth] }
  match ev.analyse temp cfg.maxMateDepth with
  | none => base
  | some (Evaluation.mateIn n) =>
      if n > 0 then { base with winning := some m }
      else { base with mateLosses := st.mateLosses + 1 }
  | some Evaluation.unknownScore => base
  | some (Evaluation.centipawn v) =>
      if curCp - v > cfg.cpCapOneMove then base
      else { base with cands := st.cands ++ [(v, m)] }

/-- The baseline evaluation `cur_cp`: the centipawn value of the current
position at `eval_depth`, defaulting to `0` on a mate score, an
unusable score, or an engine failure. -/
def baselineCp (ev : Evaluator) (cfg : Config) (b : Board) : Int :=
  match ev.analyse b cfg.evalDepth with
  | some (Evaluation.centipawn v) => v
  | _ => 0

/-- The Python `min(move_candidates, key=lambda x: x[0])`: the first
pair with minimal first component, `none` on the empty list. -/
def minCand : List (Int × Move) → Option (Int × Move)
  | [] => none
  | c :: cs => some (cs.foldl (fun acc x => if x.1 < acc.1 then x else acc) c)

/-- The eval-floor survival rule (the `try` block re-querying the
current position): on a centipawn value strictly below the literal
`-1250`, ask for the best move; any failure inside the block is
swallowed and yields `none` (fall through).  Returns the outcome and
the queries issued. -/
def floorStage (ev : Evaluator) (cfg : Config) (b : Board) :
    Option Move × List Query :=
  match ev.analyse b cfg.evalDepth with
  | none => (none, [Query.analyseQ b cfg.evalDepth])
  | some (Evaluation.centipawn v) =>
      if v < -1250 then
        match ev.best b cfg.evalDepth with
        | some m => (some m, [Query.analyseQ b cfg.evalDepth, Query.bestQ b cfg.evalDepth])
        | none => (none, [Query.analyseQ b cfg.evalDepth, Query.bestQ b cfg.evalDepth])
      else (none, [Query.analyseQ b cfg.evalDepth])
  | some _ => (none, [Query.analyseQ b cfg.evalDepth])

/-- The final two rules: return the worst candidate if any survived,
else the evaluator's best move, else a random legal move.  Returns the
move and the queries issued. -/
def candidateStage (ev : Evaluator) (cfg : Config) (rng : Nat) (b : Board)
    (legal : List Move) (cands : List (Int × Move)) : Move × List Query :=
  match minCand cands with
  | some c => (c.2, [])
  | none =>
      match ev.best b cfg.evalDepth with
      | some m => (m, [Query.bestQ b cfg.evalDepth])
      | none => (randomChoice legal rng, [Query.bestQ b cfg.evalDepth])

namespace MainPy

/-- Shallow embedding of `pick_worst_survivable_move` from `main.py`
(lines 73-171).  `s0` is the heap and `bid` the address of the board
argument; `rng` feeds any `random.choice` fallback. -/
def pick_worst_survivable_move (ev : Evaluator) (cfg : Config) (rng : Nat)
    (s0 : Store) (bid : Nat) : SelOut :=
  let board := s0.get bid
  let legal := board.legal
  if legal = [] then ⟨none, s0, []⟩
  else if board.check then
    match ev.best board cfg.evalDepth with
    | some m => ⟨some m, s0, [Query.bestQ board cfg.evalDepth]⟩
    | none => ⟨some (randomChoice legal rng), s0, [Query.bestQ board cfg.evalDepth]⟩
  else
    let curCp := baselineCp ev cfg board
    let st := legal.foldl (scanStep ev cfg bid curCp)
      ⟨s0, [], 0, none, [Query.analyseQ board cfg.evalDepth]⟩
    match st.winning with
    | some m => ⟨some m, st.store, st.trace⟩
    | none =>
      let cur := st.store.get bid
      if ((st.mateLosses : ℚ) / (legal.length : ℚ) > 0.25) then
        match ev.best cur cfg.evalDepth with
        | some m => ⟨some m, st.store, st.trace ++ [Query.bestQ cur cfg.evalDepth]⟩
        | none => ⟨some (randomChoice legal rng), st.store,
                   st.trace ++ [Query.bestQ cur cfg.evalDepth]⟩
      else
        let fs := floorStage ev cfg cur
        match fs.1 with
        | some m => ⟨some m, st.store, st.trace ++ fs.2⟩
        | none =>
          let cs := candidateStage ev cfg rng cur legal st.cands
          ⟨some cs.1, st.store, st.trace ++ (fs.2 ++ cs.2)⟩

end MainPy

namespace BotPy

/-- Shallow embedding of `pick_worst_survivable_move` from `bot.py`
(lines 100-233).  It differs from the `main.py` version in one control
path: when the mate-loss ratio fires and the best-move query fails,
`bot.py` swallows the exception and falls through to the eval-floor and
candidate rules instead of returning a random legal move. -/
def pick_worst_survivable_move (ev : Evaluator) (cfg : Config) (rng : Nat)
    (s0 : Store) (bid : Nat) : SelOut :=
  let board := s0.get bid
  let legal := board.legal
  if legal = [] then ⟨none, s0, []⟩
  else if board.check then
    match ev.best board cfg.evalDepth with
    | some m => ⟨some m, s0, [Query.bestQ board cfg.evalDepth]⟩
    | none => ⟨some (randomChoice legal rng), s0, [Query.bestQ board cfg.evalDepth]⟩
  else
    let curCp := baselineCp ev cfg board
    let st := legal.foldl (scanStep ev cfg bid curCp)
      ⟨s0, [], 0, none, [Query.analyseQ board cfg.evalDepth]⟩
    match st.winning with
    | some m => ⟨some m, st.store, st.trace⟩
    | none =>
      let cur := st.store.get bid
      let rest : List Query → SelOut := fun pre =>
        let fs := floorStage ev cfg cur
        match fs.1 with
        | some m => ⟨some m, st.store, st.trace ++ (pre ++ fs.2)⟩
        | none =>
          let cs := candidateStage ev cfg rng cur legal st.cands
          ⟨some cs.1, st.store, st.trace ++ (pre ++ (fs.2 ++ cs.2))⟩
      if ((st.mateLosses : ℚ) / (legal.length : ℚ) > 0.25) then
        match ev.best cur cfg.evalDepth with
        | some m => ⟨some m, st.store, st.trace ++ [Query.bestQ cur cfg.evalDepth]⟩
        | none => rest [Query.bestQ cur cfg.evalDepth]
      else rest []

end BotPy

/-- Evaluation of the position reached by pushing `m` on (a copy of)
`root`, at `max_mate_depth` — the quantity classified by the scan loop. -/
def moveEval (ev : Evaluator) (cfg : Config) (root : Board) (m : Move) :
    Option Evaluation :=
  ev.analyse (root.push m) cfg.maxMateDepth

/-- Does this post-move evaluation make the move an immediate winner
(`Mate(n)` with `n > 0` for the mover)? -/
def isWinningEval : Option Evaluation → Bool
  | some (Evaluation.mateIn n) => decide (0 < n)
  | _ => false

/-- The `move_candidates` list produced by a full scan: moves whose
post-move evaluation is a centipawn value within the one-move drop cap,
paired with that value, in scan order. -/
def candidateList (ev : Evaluator) (cfg : Config) (root : Board)
    (curCp : Int) (legal : List Move) : List (Int × Move) :=
  legal.filterMap fun m =>
    match moveEval ev cfg root m with
    | some (Evaluation.centipawn v) =>
        if curCp - v > cfg.cpCapOneMove then none else some (v, m)
    | _ => none

/-- The `mate_losses` counter: moves whose post-move evaluation is
`Mate(n)` with `n ≤ 0` (the code counts every non-positive mate). -/
def mateLossCount (ev : Evaluator) (cfg : Config) (root : Board)
    (legal : List Move) : Nat :=
  legal.countP fun m =>
    match moveEval ev cfg root m with
    | some (Evaluation.mateIn n) => decide (n ≤ 0)
    | _ => false

/-- Moves whose post-move evaluation is `Mate(n)` with `n < 0` strictly
(the wording of the specification). -/
def strictMateLossCount (ev : Evaluator) (cfg : Config) (root : Board)
    (legal : List Move) : Nat :=
  legal.countP fun m =>
    match moveEval ev cfg root m with
    | some (Evaluation.mateIn n) => decide (n < 0)
    | _ => false

/-- The `winning_mate_move` slot after scanning `legal` starting from
`acc`: each winning move overwrites the slot, so the last one remains. -/
def winningAfter (ev : Evaluator) (cfg : Config) (root : Board) :
    Option Move → List Move → Option Move
  | acc, [] => acc
  | acc, m :: ms =>
      winningAfter ev cfg root
        (if isWinningEval (moveEval ev cfg root m) then some m else acc) ms

/-- The per-move analyse queries issued by a full scan, in order. -/
def scanTrace (cfg : Config) (root : Board) (legal : List Move) : List Query :=
  legal.map fun m => Query.analyseQ (root.push m) cfg.maxMateDepth

/-- A two-move position, not in check, used to instantiate theorems. -/
def bTwo : Board := ⟨[0, 1], false, []⟩

/-- A two-move position that is in check. -/
def bCheck : Board := ⟨[0, 1], true, []⟩

/-- A position with no legal move. -/
def bEmpty : Board := ⟨[], false, []⟩

/-- A three-move position, not in check. -/
def bThree : Board := ⟨[0, 1, 2], false, []⟩

/-- A store holding only `bTwo`. -/
def stTwo : Store := ⟨[bTwo]⟩

/-- A store holding only `bCheck`. -/
def stCheck : Store := ⟨[bCheck]⟩

/-- A store holding only `bEmpty`. -/
def stEmpty : Store := ⟨[bEmpty]⟩

/-- A store holding only `bThree`. -/
def stThree : Store := ⟨[bThree]⟩

/-- Evaluator for which move `1` of `bTwo` is a winning mate. -/
def evMate : Evaluator where
  analyse := fun b _ =>
    match b.hist with
    | [] => some (Evaluation.centipawn 0)
    | [0] => some (Evaluation.centipawn (-10))
    | [1] => some (Evaluation.mateIn 3)
    | _ => none
  best := fun _ _ => some 99

/-- Evaluator whose current-position evaluation is below the `-1250`
floor while every move keeps a centipawn score. -/
def evFloor : Evaluator where
  analyse := fun b _ =>
    match b.hist with
    | [] => some (Evaluation.centipawn (-1300))
    | [0] => some (Evaluation.centipawn (-1200))
    | [1] => some (Evaluation.centipawn (-1250))
    | _ => none
  best := fun _ _ => some 7

/-- Evaluator with two plain centipawn candidates and no danger. -/
def evCand : Evaluator where
  analyse := fun b _ =>
    match b.hist with
    | [] => some (Evaluation.centipawn 0)
    | [0] => some (Evaluation.centipawn (-100))
    | [1] => some (Evaluation.centipawn 50)
    | _ => none
  best := fun _ _ => some 5

/-- Evaluator for which every move of `bTwo` loses to a forced mate. -/
def evRatio : Evaluator where
  analyse := fun b _ =>
    match b.hist with
    | [] => some (Evaluation.centipawn 0)
    | [0] => some (Evaluation.mateIn (-2))
    | [1] => some (Evaluation.mateIn (-3))
    | _ => none
  best := fun _ _ => some 42

/-- Evaluator whose best-move query always succeeds with move `9`. -/
def evCheckBest : Evaluator := ⟨fun _ _ => none, fun _ _ => some 9⟩

/-- Evaluator for which every query fails. -/
def evFailAll : Evaluator := ⟨fun _ _ => none, fun _ _ => none⟩

/-- Evaluator separating the two implementations: two of three moves of
`bThree` lose to mate, the third is an ordinary candidate, and the
best-move query always fails. -/
def evDiverge : Evaluator where
  analyse := fun b _ =>
    match b.hist with
    | [] => some (Evaluation.centipawn 0)
    | [0] => some (Evaluation.mateIn (-1))
    | [1] => some (Evaluation.mateIn (-1))
    | [2] => some (Evaluation.centipawn (-100))
    | _ => none
  best := fun _ _ => none

lemma getD_append_of_lt {α : Type} (l1 l2 : List α) (i : Nat) (d : α)
    (h : i < l1.length) : (l1 ++ l2).getD i d = l1.getD i d := by
  induction l1 generalizing i with
  | nil => simp at h
  | cons a t ih =>
    cases i with
    | zero => rfl
    | succ j =>
      simp only [List.cons_append, List.getD_cons_succ]
      exact ih j (by simpa using h)

lemma getD_append_len {α : Type} (l : List α) (a d : α) :
    (l ++ [a]).getD l.length d = a := by
  induction l with
  | nil => rfl
  | cons b t ih => simp [ih]

lemma set_append_len {α : Type} (l : List α) (a b : α) :
    (l ++ [a]).set l.length b = l ++ [b] := by
  induction l with
  | nil => rfl
  | cons c t ih => simp [ih]

lemma scanStep_eq (ev : Evaluator) (cfg : Config) (bid : Nat) (curCp : Int)
    (st : ScanSt) (m : Move) :
    scanStep ev cfg bid curCp st m =
      (let root := st.store.get bid
       let base : ScanSt :=
        { st with store := ⟨st.store.boards ++ [root.push m]⟩,
                  trace := st.trace ++ [Query.analyseQ (root.push m) cfg.maxMateDepth] }
       match moveEval ev cfg root m with
       | none => base
       | some (Evaluation.mateIn n) =>
           if n > 0 then { base with winning := some m }
           else { base with mateLosses := st.mateLosses + 1 }
       | some Evaluation.unknownScore => base
       | some (Evaluation.centipawn v) =>
           if curCp - v > cfg.cpCapOneMove then base
           else { base with cands := st.cands ++ [(v, m)] }) := by
  simp only [scanStep, Store.copy, Store.push, Store.get, moveEval,
    getD_append_len, set_append_len]

lemma scan_spec (ev : Evaluator) (cfg : Config) (bid : Nat) (curCp : Int)
    (legal : List Move) :
    ∀ (st : ScanSt), bid < st.store.boards.length →
      legal.foldl (scanStep ev cfg bid curCp) st =
        ⟨⟨st.store.boards ++ legal.map fun m => (st.store.get bid).push m⟩,
         st.cands ++ candidateList ev cfg (st.store.get bid) curCp legal,
         st.mateLosses + mateLossCount ev cfg (st.store.get bid) legal,
         winningAfter ev cfg (st.store.get bid) st.winning legal,
         st.trace ++ scanTrace cfg (st.store.get bid) legal⟩ := by
  induction legal with
  | nil =>
    intro st hb
    rcases st with ⟨⟨l⟩, c, n, w, t⟩
    simp [candidateList, mateLossCount, winningAfter, scanTrace]
  | cons m ms ih =>
    intro st hb
    have hget : ∀ b : Board,
        (⟨st.store.boards ++ [b]⟩ : Store).get bid = st.store.get bid := by
      intro b
      simp only [Store.get]
      exact getD_append_of_lt _ _ _ _ hb
    have hlen : ∀ b : Board,
        bid < ((⟨st.store.boards ++ [b]⟩ : Store).boards).length := by
      intro b
      simp only [List.length_append, List.length_singleton]
      omega
    rw [List.foldl_cons, scanStep_eq]
    rcases hev : moveEval ev cfg (st.store.get bid) m with _ | e
    · simp only [hev]
      rw [ih _ (hlen _)]
      simp [hget, candidateList, mateLossCount, winningAfter, scanTrace,
        isWinningEval, hev, List.filterMap_cons, List.countP_cons]
    · cases e with
      | centipawn v =>
        by_cases hd : curCp - v > cfg.cpCapOneMove
        · simp only [hev, if_pos hd]
          rw [ih _ (hlen _)]
          simp [hget, candidateList, mateLossCount, winningAfter, scanTrace,
            isWinningEval, hev, hd, List.filterMap_cons, List.countP_cons]
        · simp only [hev, if_neg hd]
          rw [ih _ (hlen _)]
          simp [hget, candidateList, mateLossCount, winningAfter, scanTrace,
            isWinningEval, hev, hd, List.filterMap_cons, List.countP_cons]
      | mateIn n =>
        by_cases hn : n > 0
        · simp only [hev, if_pos hn]
          rw [ih _ (hlen _)]
          simp [hget, candidateList, mateLossCount, winningAfter, scanTrace,
            isWinningEval, hev, hn, List.filterMap_cons, List.countP_cons,
            show ¬ n ≤ 0 by omega]
        · simp only [hev, if_neg hn]
          rw [ih _ (hlen _)]
          simp [hget, candidateList, mateLossCount, winningAfter, scanTrace,
            isWinningEval, hev, hn, List.filterMap_cons, List.countP_cons,
            show n ≤ 0 by omega]
          omega
      | unknownScore =>
        simp only [hev]
        rw [ih _ (hlen _)]
        simp [hget, candidateList, mateLossCount, winningAfter, scanTrace,
          isWinningEval, hev, List.filterMap_cons, List.countP_cons]

lemma main_pick_eq (ev : Evaluator) (cfg : Config) (rng : Nat) (s0 : Store)
    (bid : Nat) (hb : bid < s0.boards.length)
    (hchk : (s0.get bid).check = false) (hleg : (s0.get bid).legal ≠ []) :
    MainPy.pick_worst_survivable_move ev cfg rng s0 bid =
      (let root := s0.get bid
       let legal := root.legal
       let curCp := baselineCp ev cfg root
       let stStore : Store := ⟨s0.boards ++ legal.map fun m => root.push m⟩
       let tr0 := Query.analyseQ root cfg.evalDepth :: scanTrace cfg root legal
       match winningAfter ev cfg root none legal with
       | some m => ⟨some m, stStore, tr0⟩
       | none =>
         if ((mateLossCount ev cfg root legal : ℚ) / (legal.length : ℚ) > 0.25) then
           match ev.best root cfg.evalDepth with
           | some m => ⟨some m, stStore, tr0 ++ [Query.bestQ root cfg.evalDepth]⟩
           | none => ⟨some (randomChoice legal rng), stStore,
                      tr0 ++ [Query.bestQ root cfg.evalDepth]⟩
         else
           let fs := floorStage ev cfg root
           match fs.1 with
           | some m => ⟨some m, stStore, tr0 ++ fs.2⟩
           | none =>
             let cs := candidateStage ev cfg rng root legal
               (candidateList ev cfg root curCp legal)
             ⟨some cs.1, stStore, tr0 ++ (fs.2 ++ cs.2)⟩) := by
  have hcur : (⟨s0.boards ++ (s0.get bid).legal.map fun m =>
      (s0.get bid).push m⟩ : Store).get bid = s0.get bid := by
    simp only [Store.get]
    exact getD_append_of_lt _ _ _ _ hb
  simp only [MainPy.pick_worst_survivable_move]
  rw [if_neg hleg, if_neg (by simp [hchk] : ¬ (s0.get bid).check = true)]
  rw [scan_spec ev cfg bid _ _ _ hb]
  simp only [hcur, Nat.zero_add, List.nil_append]
  rfl

lemma bot_pick_eq (ev : Evaluator) (cfg : Config) (rng : Nat) (s0 : Store)
    (bid : Nat) (hb : bid < s0.boards.length)
    (hchk : (s0.get bid).check = false) (hleg : (s0.get bid).legal ≠ []) :
    BotPy.pick_worst_survivable_move ev cfg rng s0 bid =
      (let root := s0.get bid
       let legal := root.legal
       let curCp := baselineCp ev cfg root
       let stStore : Store := ⟨s0.boards ++ legal.map fun m => root.push m⟩
       let tr0 := Query.analyseQ root cfg.evalDepth :: scanTrace cfg root legal
       let rest : List Query → SelOut := fun pre =>
         let fs := floorStage ev cfg root
         match fs.1 with
         | some m => ⟨some m, stStore, tr0 ++ (pre ++ fs.2)⟩
         | none =>
           let cs := candidateStage ev cfg rng root legal
             (candidateList ev cfg root curCp legal)
           ⟨some cs.1, stStore, tr0 ++ (pre ++ (fs.2 ++ cs.2))⟩
       match winningAfter ev cfg root none legal with
       | some m => ⟨some m, stStore, tr0⟩
       | none =>
         if ((mateLossCount ev cfg root legal : ℚ) / (legal.length : ℚ) > 0.25) then
           match ev.best root cfg.evalDepth with
           | some m => ⟨some m, stStore, tr0 ++ [Query.bestQ root cfg.evalDepth]⟩
           | none => rest [Query.bestQ root cfg.evalDepth]
         else rest []) := by
  have hcur : (⟨s0.boards ++ (s0.get bid).legal.map fun m =>
      (s0.get bid).push m⟩ : Store).get bid = s0.get bid := by
    simp only [Store.get]
    exact getD_append_of_lt _ _ _ _ hb
  simp only [BotPy.pick_worst_survivable_move]
  rw [if_neg hleg, if_neg (by simp [hchk] : ¬ (s0.get bid).check = true)]
  rw [scan_spec ev cfg bid _ _ _ hb]
  simp only [hcur, Nat.zero_add, List.nil_append]
  rfl

lemma foldl_min_aux (cs : List (Int × Move)) : ∀ acc : Int × Move,
    ((cs.foldl (fun a x => if x.1 < a.1 then x else a) acc = acc ∨
      cs.foldl (fun a x => if x.1 < a.1 then x else a) acc ∈ cs) ∧
     (cs.foldl (fun a x => if x.1 < a.1 then x else a) acc).1 ≤ acc.1 ∧
     (∀ x ∈ cs, (cs.foldl (fun a x => if x.1 < a.1 then x else a) acc).1 ≤ x.1)) := by
  induction cs with
  | nil => intro acc; simp
  | cons y ys ih =>
    intro acc
    rw [List.foldl_cons]
    by_cases h : y.1 < acc.1
    · rw [if_pos h]
      rcases ih y with ⟨hmem, hle, hall⟩
      refine ⟨?_, le_trans hle (le_of_lt h), ?_⟩
      · rcases hmem with h1 | h1
        · right
          rw [h1]
          exact List.mem_cons_self _ _
        · right
          exact List.mem_cons_of_mem _ h1
      · intro x hx
        rcases List.mem_cons.mp hx with rfl | hx
        · exact hle
        · exact hall x hx
    · rw [if_neg h]
      rcases ih acc with ⟨hmem, hle, hall⟩
      refine ⟨?_, hle, ?_⟩
      · rcases hmem with h1 | h1
        · left
          exact h1
        · right
          exact List.mem_cons_of_mem _ h1
      · intro x hx
        rcases List.mem_cons.mp hx with rfl | hx
        · exact le_trans hle (not_lt.mp h)
        · exact hall x hx

lemma minCand_spec (cands : List (Int × Move)) (hne : cands ≠ []) :
    ∃ p, minCand cands = some p ∧ p ∈ cands ∧ ∀ x ∈ cands, p.1 ≤ x.1 := by
  cases cands with
  | nil => exact absurd rfl hne
  | cons c cs =>
    rcases foldl_min_aux cs c with ⟨hmem, hle, hall⟩
    refine ⟨_, rfl, ?_, ?_⟩
    · rcases hmem with h1 | h1
      · rw [h1]
        exact List.mem_cons_self _ _
      · exact List.mem_cons_of_mem _ h1
    · intro x hx
      rcases List.mem_cons.mp hx with rfl | hx
      · exact hle
      · exact hall x hx

lemma winningAfter_of_none (ev : Evaluator) (cfg : Config) (root : Board)
    (legal : List Move)
    (h : ∀ m ∈ legal, isWinningEval (moveEval ev cfg root m) = false) :
    ∀ acc, winningAfter ev cfg root acc legal = acc := by
  induction legal with
  | nil => intro acc; rfl
  | cons m ms ih =>
    intro acc
    simp only [winningAfter, h m (List.mem_cons_self _ _), Bool.false_eq_true,
      if_false]
    exact ih (fun x hx => h x (List.mem_cons_of_mem _ hx)) acc

lemma winningAfter_of_exists (ev : Evaluator) (cfg : Config) (root : Board)
    (legal : List Move) :
    ∀ acc, (∃ m ∈ legal, isWinningEval (moveEval ev cfg root m) = true) →
      ∃ w ∈ legal, isWinningEval (moveEval ev cfg root w) = true ∧
        winningAfter ev cfg root acc legal = some w := by
  induction legal with
  | nil =>
    intro acc h
    simp at h
  | cons m ms ih =>
    intro acc h
    by_cases hms : ∃ x ∈ ms, isWinningEval (moveEval ev cfg root x) = true
    · rcases ih (if isWinningEval (moveEval ev cfg root m) then some m else acc)
        hms with ⟨w, hw, hwin, heq⟩
      exact ⟨w, List.mem_cons_of_mem _ hw, hwin, heq⟩
    · have hm : isWinningEval (moveEval ev cfg root m) = true := by
        rcases h with ⟨x, hx, hwin⟩
        rcases List.mem_cons.mp hx with rfl | hx
        · exact hwin
        · exact absurd ⟨x, hx, hwin⟩ hms
      have hnone : ∀ x ∈ ms, isWinningEval (moveEval ev cfg root x) = false := by
        intro x hx
        by_contra hc
        exact hms ⟨x, hx, by simpa using hc⟩
      refine ⟨m, List.mem_cons_self _ _, hm, ?_⟩
      simp only [winningAfter, hm, if_true]
      exact winningAfter_of_none ev cfg root ms hnone (some m)

lemma countP_imp_le {p q : Move → Bool} (l : List Move)
    (h : ∀ a, p a = true → q a = true) : l.countP p ≤ l.countP q := by
  induction l with
  | nil => simp
  | cons a t ih =>
    rw [List.countP_cons, List.countP_cons]
    by_cases hp : p a = true
    · rw [if_pos hp, if_pos (h a hp)]
      omega
    · rw [if_neg hp]
      split
      all_goals omega

lemma randomChoice_mem (l : List Move) (r : Nat) (h : l ≠ []) :
    randomChoice l r ∈ l := by
  have hlen : 0 < l.length := List.length_pos.mpr h
  have hmod : r % l.length < l.length := Nat.mod_lt _ hlen
  rw [randomChoice, List.getD_eq_getElem l 0 hmod]
  exact List.getElem_mem hmod

lemma scanStep_store (ev : Evaluator) (cfg : Config) (bid : Nat) (curCp : Int)
    (st : ScanSt) (m : Move) :
    (scanStep ev cfg bid curCp st m).store.boards =
      st.store.boards ++ [(st.store.get bid).push m] := by
  rw [scanStep_eq]
  rcases hev : moveEval ev cfg (st.store.get bid) m with _ | e
  · simp [hev]
  · cases e with
    | centipawn v =>
      by_cases hd : curCp - v > cfg.cpCapOneMove <;> simp [hev, hd]
    | mateIn n =>
      by_cases hn : n > 0 <;> simp [hev, hn]
    | unknownScore => simp [hev]

lemma scan_store_prefix (ev : Evaluator) (cfg : Config) (bid : Nat)
    (curCp : Int) (legal : List Move) :
    ∀ st : ScanSt, ∃ ext,
      (legal.foldl (scanStep ev cfg bid curCp) st).store.boards =
        st.store.boards ++ ext := by
  induction legal with
  | nil =>
    intro st
    exact ⟨[], by simp⟩
  | cons m ms ih =>
    intro st
    rw [List.foldl_cons]
    rcases ih (scanStep ev cfg bid curCp st m) with ⟨ext, hext⟩
    refine ⟨[(st.store.get bid).push m] ++ ext, ?_⟩
    rw [hext, scanStep_store]
    simp

lemma main_pick_store_prefix (ev : Evaluator) (cfg : Config) (rng : Nat)
    (s0 : Store) (bid : Nat) :
    ∃ ext, (MainPy.pick_worst_survivable_move ev cfg rng s0 bid).store.boards =
      s0.boards ++ ext := by
  simp only [MainPy.pick_worst_survivable_move]
  split
  · exact ⟨[], by simp⟩
  · split
    · split
      · exact ⟨[], by simp⟩
      · exact ⟨[], by simp⟩
    · rcases scan_store_prefix ev cfg bid
        (baselineCp ev cfg (s0.get bid)) (s0.get bid).legal
        ⟨s0, [], 0, none, [Query.analyseQ (s0.get bid) cfg.evalDepth]⟩ with ⟨ext, hext⟩
      split
      · exact ⟨ext, hext⟩
      · split
        · split
          · exact ⟨ext, hext⟩
          · exact ⟨ext, hext⟩
        · split
          · exact ⟨ext, hext⟩
          · exact ⟨ext, hext⟩

lemma bot_pick_store_prefix (ev : Evaluator) (cfg : Config) (rng : Nat)
    (s0 : Store) (bid : Nat) :
    ∃ ext, (BotPy.pick_worst_survivable_move ev cfg rng s0 bid).store.boards =
      s0.boards ++ ext := by
  simp only [BotPy.pick_worst_survivable_move]
  split
  · exact ⟨[], by simp⟩
  · split
    · split
      · exact ⟨[], by simp⟩
      · exact ⟨[], by simp⟩
    · rcases scan_store_prefix ev cfg bid
        (baselineCp ev cfg (s0.get bid)) (s0.get bid).legal
        ⟨s0, [], 0, none, [Query.analyseQ (s0.get bid) cfg.evalDepth]⟩ with ⟨ext, hext⟩
      split
      · exact ⟨ext, hext⟩
      · split
        · split
          · exact ⟨ext, hext⟩
          · split
            · exact ⟨ext, hext⟩
            · exact ⟨ext, hext⟩
        · split
          · exact ⟨ext, hext⟩
          · exact ⟨ext, hext⟩

/-- C6: on a position with zero legal moves the selector returns `None`
immediately: the store is untouched and the query trace is empty, so no
evaluator call is made. -/
theorem no_legal_moves_returns_none (ev : Evaluator) (cfg : Config)
    (rng : Nat) (s0 : Store) (bid : Nat)
    (h : (s0.get bid).legal = []) :
    MainPy.pick_worst_survivable_move ev cfg rng s0 bid = ⟨none, s0, []⟩ := by
  simp [MainPy.pick_worst_survivable_move, h]

/-- Witness for `no_legal_moves_returns_none` at the concrete empty
position `bEmpty`. -/
theorem no_legal_moves_returns_none_witness :
    (stEmpty.get 0).legal = [] ∧
    MainPy.pick_worst_survivable_move evFailAll mainDefaults 0 stEmpty 0 =
      ⟨none, stEmpty, []⟩ :=
  ⟨by decide,
   no_legal_moves_returns_none evFailAll mainDefaults 0 stEmpty 0 (by decide)⟩

/-- C9: for every position, configuration, evaluator behaviour and
random draw, the selector terminates in a move or `None`: it returns
`None` exactly on the empty-legal-move case (which exits before the
`mate_losses / total` division is reached) and some move otherwise. -/
theorem selector_total (ev : Evaluator) (cfg : Config) (rng : Nat)
    (s0 : Store) (bid : Nat) :
    ((s0.get bid).legal = [] →
      (MainPy.pick_worst_survivable_move ev cfg rng s0 bid).result = none) ∧
    ((s0.get bid).legal ≠ [] →
      ∃ m, (MainPy.pick_worst_survivable_move ev cfg rng s0 bid).result = some m) := by
  constructor
  · intro h
    simp [MainPy.pick_worst_survivable_move, h]
  · intro h
    simp only [MainPy.pick_worst_survivable_move]
    rw [if_neg h]
    split
    · split
      · exact ⟨_, rfl⟩
      · exact ⟨_, rfl⟩
    · split
      · exact ⟨_, rfl⟩
      · split
        · split
          · exact ⟨_, rfl⟩
          · exact ⟨_, rfl⟩
        · split
          · exact ⟨_, rfl⟩
          · exact ⟨_, rfl⟩

/-- Witness for `selector_total` on the concrete two-move position. -/
theorem selector_total_witness :
    (stTwo.get 0).legal ≠ [] ∧
    ∃ m, (MainPy.pick_worst_survivable_move evCand mainDefaults 0 stTwo 0).result =
      some m :=
  ⟨by decide, (selector_total evCand mainDefaults 0 stTwo 0).2 (by decide)⟩

/-- C5: when the position is in check and a legal move exists, the
selector returns the evaluator's best move at `eval_depth` and issues
only that single query, bypassing the baseline, the scan and every
other rule; on failure of that query it falls back to the rng-selected
legal move. -/
theorem in_check_plays_best (ev : Evaluator) (cfg : Config) (rng : Nat)
    (s0 : Store) (bid : Nat)
    (hchk : (s0.get bid).check = true) (hleg : (s0.get bid).legal ≠ []) :
    (∀ m, ev.best (s0.get bid) cfg.evalDepth = some m →
      MainPy.pick_worst_survivable_move ev cfg rng s0 bid =
        ⟨some m, s0, [Query.bestQ (s0.get bid) cfg.evalDepth]⟩) ∧
    (ev.best (s0.get bid) cfg.evalDepth = none →
      MainPy.pick_worst_survivable_move ev cfg rng s0 bid =
        ⟨some (randomChoice (s0.get bid).legal rng), s0,
         [Query.bestQ (s0.get bid) cfg.evalDepth]⟩ ∧
      randomChoice (s0.get bid).legal rng ∈ (s0.get bid).legal) := by
  constructor
  · intro m hm
    simp [MainPy.pick_worst_survivable_move, hleg, hchk, hm]
  · intro hm
    refine ⟨?_, randomChoice_mem _ _ hleg⟩
    simp [MainPy.pick_worst_survivable_move, hleg, hchk, hm]

/-- Witness for `in_check_plays_best`: in check, `evCheckBest` answers
`9` and the selector plays it. -/
theorem in_check_plays_best_witness :
    (stCheck.get 0).check = true ∧ (stCheck.get 0).legal ≠ [] ∧
    MainPy.pick_worst_survivable_move evCheckBest mainDefaults 0 stCheck 0 =
      ⟨some 9, stCheck, [Query.bestQ (stCheck.get 0) mainDefaults.evalDepth]⟩ :=
  ⟨by decide, by decide,
   (in_check_plays_best evCheckBest mainDefaults 0 stCheck 0
     (by decide) (by decide)).1 9 (by decide)⟩

/-- C7: frame property of both implementations — every board object
that existed before the call, in particular the caller's board `bid`,
is observably unchanged afterwards; all pushes of the scan happen on
private copies allocated beyond the original store. -/
theorem selector_never_mutates_input (ev : Evaluator) (cfg : Config)
    (rng : Nat) (s0 : Store) (bid : Nat) :
    ∀ j, j < s0.boards.length →
      (MainPy.pick_worst_survivable_move ev cfg rng s0 bid).store.get j = s0.get j ∧
      (BotPy.pick_worst_survivable_move ev cfg rng s0 bid).store.get j = s0.get j := by
  intro j hj
  constructor
  · rcases main_pick_store_prefix ev cfg rng s0 bid with ⟨ext, hext⟩
    simp only [Store.get, hext]
    exact getD_append_of_lt _ _ _ _ hj
  · rcases bot_pick_store_prefix ev cfg rng s0 bid with ⟨ext, hext⟩
    simp only [Store.get, hext]
    exact getD_append_of_lt _ _ _ _ hj

/-- Witness for `selector_never_mutates_input` at the concrete
two-move position and the `evMate` evaluator. -/
theorem selector_never_mutates_input_witness :
    0 < stTwo.boards.length ∧
    (MainPy.pick_worst_survivable_move evMate mainDefaults 0 stTwo 0).store.get 0 =
      stTwo.get 0 ∧
    (BotPy.pick_worst_survivable_move evMate mainDefaults 0 stTwo 0).store.get 0 =
      stTwo.get 0 :=
  ⟨by decide,
   (selector_never_mutates_input evMate mainDefaults 0 stTwo 0 0 (by decide)).1,
   (selector_never_mutates_input evMate mainDefaults 0 stTwo 0 0 (by decide)).2⟩

/-- C1: if some legal move's deep-scan evaluation is a winning mate
(`Mate(n)`, `n > 0`), both implementations return a winning-mate move,
overriding every other decision rule, and the scan still issued the
deep analyse query for every legal move. -/
theorem winning_mate_has_priority (ev : Evaluator) (cfg : Config)
    (rng : Nat) (s0 : Store) (bid : Nat)
    (hb : bid < s0.boards.length)
    (hchk : (s0.get bid).check = false)
    (hleg : (s0.get bid).legal ≠ [])
    (hwin : ∃ m ∈ (s0.get bid).legal,
      isWinningEval (moveEval ev cfg (s0.get bid) m) = true) :
    (∃ w ∈ (s0.get bid).legal,
      isWinningEval (moveEval ev cfg (s0.get bid) w) = true ∧
      (MainPy.pick_worst_survivable_move ev cfg rng s0 bid).result = some w ∧
      (BotPy.pick_worst_survivable_move ev cfg rng s0 bid).result = some w) ∧
    (∀ m ∈ (s0.get bid).legal,
      Query.analyseQ ((s0.get bid).push m) cfg.maxMateDepth ∈
        (MainPy.pick_worst_survivable_move ev cfg rng s0 bid).trace) := by
  rcases winningAfter_of_exists ev cfg (s0.get bid) (s0.get bid).legal none hwin
    with ⟨w, hwmem, hwwin, heq⟩
  rw [main_pick_eq ev cfg rng s0 bid hb hchk hleg,
      bot_pick_eq ev cfg rng s0 bid hb hchk hleg]
  simp only [heq]
  refine ⟨⟨w, hwmem, hwwin, rfl, rfl⟩, ?_⟩
  intro m hm
  exact List.mem_cons_of_mem _ (List.mem_map_of_mem _ hm)

/-- Witness for `winning_mate_has_priority`: with `evMate`, move `1` of
`bTwo` mates in 3 and both selectors play it. -/
theorem winning_mate_has_priority_witness :
    (stTwo.get 0).check = false ∧ (stTwo.get 0).legal ≠ [] ∧
    ((∃ w ∈ (stTwo.get 0).legal,
      isWinningEval (moveEval evMate mainDefaults (stTwo.get 0) w) = true ∧
      (MainPy.pick_worst_survivable_move evMate mainDefaults 0 stTwo 0).result = some w ∧
      (BotPy.pick_worst_survivable_move evMate mainDefaults 0 stTwo 0).result = some w) ∧
     (∀ m ∈ (stTwo.get 0).legal,
      Query.analyseQ ((stTwo.get 0).push m) mainDefaults.maxMateDepth ∈
        (MainPy.pick_worst_survivable_move evMate mainDefaults 0 stTwo 0).trace)) :=
  ⟨by decide, by decide,
   winning_mate_has_priority evMate mainDefaults 0 stTwo 0
     (by decide) (by decide) (by decide) (by decide)⟩

lemma ratio_not_gt (cnt total : Nat) (h : 4 * cnt ≤ total) :
    ¬ ((cnt : ℚ) / (total : ℚ) > 0.25) := by
  intro hgt
  rcases Nat.eq_zero_or_pos total with h0 | hpos
  · rw [h0] at hgt
    norm_num at hgt
  · have hq : (0:ℚ) < (total : ℚ) := by exact_mod_cast hpos
    rw [gt_iff_lt, lt_div_iff₀ hq] at hgt
    have hc : ((4 * cnt : Nat) : ℚ) ≤ ((total : Nat) : ℚ) := by exact_mod_cast h
    push_cast at hc
    linarith

lemma ratio_gt (cnt total : Nat) (hpos : 0 < total) (h : total < 4 * cnt) :
    ((cnt : ℚ) / (total : ℚ) > 0.25) := by
  have hq : (0:ℚ) < (total : ℚ) := by exact_mod_cast hpos
  rw [gt_iff_lt, lt_div_iff₀ hq]
  have hc : ((total : Nat) : ℚ) < ((4 * cnt : Nat) : ℚ) := by exact_mod_cast h
  push_cast at hc
  linarith

/-- C2: the eval-floor survival rule re-queries the current position at
`eval_depth` and fires on a centipawn value strictly below the literal
`-1250`; the configured `cp_cap_total` parameter is never consulted (the
selector's output is invariant under changing it); and any evaluator
failure inside this rule is swallowed, control falling through to the
candidate/fallback stage instead of choosing randomly.  The mate-ratio
hypothesis `4 * mate_losses ≤ total` is the exact negation of the
earlier rule's `mate_losses / total > 0.25` test. -/
theorem eval_floor_literal_threshold (ev : Evaluator) (cfg : Config)
    (rng : Nat) (s0 : Store) (bid : Nat)
    (hb : bid < s0.boards.length)
    (hchk : (s0.get bid).check = false)
    (hleg : (s0.get bid).legal ≠ [])
    (hnowin : ∀ m ∈ (s0.get bid).legal,
      isWinningEval (moveEval ev cfg (s0.get bid) m) = false)
    (hratio : 4 * mateLossCount ev cfg (s0.get bid) (s0.get bid).legal ≤
      (s0.get bid).legal.length) :
    (∀ t, MainPy.pick_worst_survivable_move ev { cfg with cpCapTotal := t } rng s0 bid =
      MainPy.pick_worst_survivable_move ev cfg rng s0 bid) ∧
    (∀ v bm, ev.analyse (s0.get bid) cfg.evalDepth = some (Evaluation.centipawn v) →
      v < -1250 → ev.best (s0.get bid) cfg.evalDepth = some bm →
      (MainPy.pick_worst_survivable_move ev cfg rng s0 bid).result = some bm ∧
      (BotPy.pick_worst_survivable_move ev cfg rng s0 bid).result = some bm) ∧
    ((floorStage ev cfg (s0.get bid)).1 = none →
      (MainPy.pick_worst_survivable_move ev cfg rng s0 bid).result =
        some (candidateStage ev cfg rng (s0.get bid) (s0.get bid).legal
          (candidateList ev cfg (s0.get bid) (baselineCp ev cfg (s0.get bid))
            (s0.get bid).legal)).1) := by
  have hwa := winningAfter_of_none ev cfg (s0.get bid) _ hnowin none
  have hq := ratio_not_gt _ _ hratio
  refine ⟨?_, ?_, ?_⟩
  · intro t
    cases cfg
    rfl
  · intro v bm hana hv hbm
    have hfs : floorStage ev cfg (s0.get bid) =
        (some bm, [Query.analyseQ (s0.get bid) cfg.evalDepth,
                   Query.bestQ (s0.get bid) cfg.evalDepth]) := by
      simp [floorStage, hana, hv, hbm]
    rw [main_pick_eq ev cfg rng s0 bid hb hchk hleg,
        bot_pick_eq ev cfg rng s0 bid hb hchk hleg]
    simp only [hwa, if_neg hq, hfs]
    exact ⟨trivial, trivial⟩
  · intro hfs
    rw [main_pick_eq ev cfg rng s0 bid hb hchk hleg]
    simp only [hwa, if_neg hq, hfs]

/-- Witness for `eval_floor_literal_threshold`: with `evFloor` the
current evaluation is `-1300 < -1250` and the selector plays the best
move `7`. -/
theorem eval_floor_literal_threshold_witness :
    (stTwo.get 0).check = false ∧ (stTwo.get 0).legal ≠ [] ∧
    (MainPy.pick_worst_survivable_move evFloor mainDefaults 0 stTwo 0).result =
      some 7 ∧
    (BotPy.pick_worst_survivable_move evFloor mainDefaults 0 stTwo 0).result =
      some 7 :=
  ⟨by decide, by decide,
   (eval_floor_literal_threshold evFloor mainDefaults 0 stTwo 0
     (by decide) (by decide) (by decide) (by decide) (by decide)).2.1
     (-1300) 7 (by decide) (by decide) (by decide)⟩

/-- C3: when no winning mate was found, neither survival rule fires
(`4 * mate_losses ≤ total` negates the ratio test) and the filtered
candidate set is non-empty, the selector returns a candidate of minimal
post-move centipawn evaluation: no surviving candidate evaluates
strictly lower. -/
theorem worst_candidate_is_minimal (ev : Evaluator) (cfg : Config)
    (rng : Nat) (s0 : Store) (bid : Nat)
    (hb : bid < s0.boards.length)
    (hchk : (s0.get bid).check = false)
    (hleg : (s0.get bid).legal ≠ [])
    (hnowin : ∀ m ∈ (s0.get bid).legal,
      isWinningEval (moveEval ev cfg (s0.get bid) m) = false)
    (hratio : 4 * mateLossCount ev cfg (s0.get bid) (s0.get bid).legal ≤
      (s0.get bid).legal.length)
    (hfs : (floorStage ev cfg (s0.get bid)).1 = none)
    (hcands : candidateList ev cfg (s0.get bid)
      (baselineCp ev cfg (s0.get bid)) (s0.get bid).legal ≠ []) :
    ∃ c ∈ candidateList ev cfg (s0.get bid)
        (baselineCp ev cfg (s0.get bid)) (s0.get bid).legal,
      (MainPy.pick_worst_survivable_move ev cfg rng s0 bid).result = some c.2 ∧
      ∀ x ∈ candidateList ev cfg (s0.get bid)
          (baselineCp ev cfg (s0.get bid)) (s0.get bid).legal,
        c.1 ≤ x.1 := by
  have hwa := winningAfter_of_none ev cfg (s0.get bid) _ hnowin none
  have hq := ratio_not_gt _ _ hratio
  rcases minCand_spec _ hcands with ⟨p, hmin, hpmem, hple⟩
  rw [main_pick_eq ev cfg rng s0 bid hb hchk hleg]
  simp only [hwa, if_neg hq, hfs, candidateStage, hmin]
  exact ⟨p, hpmem, rfl, hple⟩

/-- Witness for `worst_candidate_is_minimal`: with `evCand` the
candidates evaluate to `-100` and `50`; the selector plays move `0`
(the `-100` one). -/
theorem worst_candidate_is_minimal_witness :
    (stTwo.get 0).check = false ∧ (stTwo.get 0).legal ≠ [] ∧
    ∃ c ∈ candidateList evCand mainDefaults (stTwo.get 0)
        (baselineCp evCand mainDefaults (stTwo.get 0)) (stTwo.get 0).legal,
      (MainPy.pick_worst_survivable_move evCand mainDefaults 0 stTwo 0).result =
        some c.2 ∧
      ∀ x ∈ candidateList evCand mainDefaults (stTwo.get 0)
          (baselineCp evCand mainDefaults (stTwo.get 0)) (stTwo.get 0).legal,
        c.1 ≤ x.1 :=
  ⟨by decide, by decide,
   worst_candidate_is_minimal evCand mainDefaults 0 stTwo 0
     (by decide) (by decide) (by decide) (by decide) (by decide)
     (by decide) (by decide)⟩

/-- C4 is false as stated: at a concrete position where 2 of 3 legal
moves lose to a forced mate (ratio `2/3 > 0.25`), no winning mate
exists and the best-move query fails, the `bot.py` selector (one of the
claim's cited implementations) returns the surviving candidate, move
`2`, not the uniformly random legal move (move `0` at this draw). -/
theorem mate_ratio_survival_cex :
    bThree.legal.length <
      4 * strictMateLossCount evDiverge mainDefaults bThree bThree.legal ∧
    evDiverge.best bThree mainDefaults.evalDepth = none ∧
    (BotPy.pick_worst_survivable_move evDiverge mainDefaults 0 stThree 0).result =
      some 2 ∧
    randomChoice bThree.legal 0 = 0 := by
  have hq : ((mateLossCount evDiverge mainDefaults (stThree.get 0)
      (stThree.get 0).legal : ℚ) /
      ((stThree.get 0).legal.length : ℚ) > 0.25) :=
    ratio_gt _ _ (by decide) (by decide)
  have hwa : winningAfter evDiverge mainDefaults (stThree.get 0) none
      (stThree.get 0).legal = none := by decide
  have hbm : evDiverge.best (stThree.get 0) mainDefaults.evalDepth = none := rfl
  refine ⟨by decide, by decide, ?_, by decide⟩
  rw [bot_pick_eq evDiverge mainDefaults 0 stThree 0
    (by decide) (by decide) (by decide)]
  simp only [hwa, if_pos hq, hbm]
  decide

/-- C4 (amended): if strictly more than a quarter of all legal moves
(the denominator counts every legal move, winning and skipped ones
included; `total < 4 * strict_losses` is exactly
`strict_losses / total > 0.25`) lose to a forced mate (`Mate(n)`,
`n < 0`) and no winning mate was found, both implementations query the
evaluator's best move at `eval_depth` and return it on success; on
failure `main.py` returns the rng-selected legal move while `bot.py`
swallows the failure and falls through to the eval-floor and candidate
rules. -/
theorem mate_ratio_survival (ev : Evaluator) (cfg : Config)
    (rng : Nat) (s0 : Store) (bid : Nat)
    (hb : bid < s0.boards.length)
    (hchk : (s0.get bid).check = false)
    (hleg : (s0.get bid).legal ≠ [])
    (hnowin : ∀ m ∈ (s0.get bid).legal,
      isWinningEval (moveEval ev cfg (s0.get bid) m) = false)
    (hr : (s0.get bid).legal.length <
      4 * strictMateLossCount ev cfg (s0.get bid) (s0.get bid).legal) :
    (∀ m, ev.best (s0.get bid) cfg.evalDepth = some m →
      (MainPy.pick_worst_survivable_move ev cfg rng s0 bid).result = some m ∧
      (BotPy.pick_worst_survivable_move ev cfg rng s0 bid).result = some m) ∧
    (ev.best (s0.get bid) cfg.evalDepth = none →
      (MainPy.pick_worst_survivable_move ev cfg rng s0 bid).result =
        some (randomChoice (s0.get bid).legal rng) ∧
      randomChoice (s0.get bid).legal rng ∈ (s0.get bid).legal ∧
      (∀ fm, (floorStage ev cfg (s0.get bid)).1 = some fm →
        (BotPy.pick_worst_survivable_move ev cfg rng s0 bid).result = some fm) ∧
      ((floorStage ev cfg (s0.get bid)).1 = none →
        (BotPy.pick_worst_survivable_move ev cfg rng s0 bid).result =
          some (candidateStage ev cfg rng (s0.get bid) (s0.get bid).legal
            (candidateList ev cfg (s0.get bid) (baselineCp ev cfg (s0.get bid))
              (s0.get bid).legal)).1)) := by
  have hwa := winningAfter_of_none ev cfg (s0.get bid) _ hnowin none
  have hmono : strictMateLossCount ev cfg (s0.get bid) (s0.get bid).legal ≤
      mateLossCount ev cfg (s0.get bid) (s0.get bid).legal := by
    simp only [strictMateLossCount, mateLossCount]
    apply countP_imp_le
    intro a ha
    rcases hme : moveEval ev cfg (s0.get bid) a with _ | e
    · simp [hme] at ha
    · cases e with
      | centipawn v => simp [hme] at ha
      | mateIn n =>
        simp only [hme, decide_eq_true_eq] at ha ⊢
        omega
      | unknownScore => simp [hme] at ha
  have hpos : 0 < (s0.get bid).legal.length := List.length_pos.mpr hleg
  have hq : ((mateLossCount ev cfg (s0.get bid) (s0.get bid).legal : ℚ) /
      ((s0.get bid).legal.length : ℚ) > 0.25) :=
    ratio_gt _ _ hpos (by omega)
  constructor
  · intro m hm
    rw [main_pick_eq ev cfg rng s0 bid hb hchk hleg,
        bot_pick_eq ev cfg rng s0 bid hb hchk hleg]
    simp [hwa, if_pos hq, hm]
  · intro hm
    refine ⟨?_, randomChoice_mem _ _ hleg, ?_, ?_⟩
    · rw [main_pick_eq ev cfg rng s0 bid hb hchk hleg]
      simp [hwa, if_pos hq, hm]
    · intro fm hfm
      rw [bot_pick_eq ev cfg rng s0 bid hb hchk hleg]
      simp [hwa, if_pos hq, hm, hfm]
    · intro hfs
      rw [bot_pick_eq ev cfg rng s0 bid hb hchk hleg]
      simp [hwa, if_pos hq, hm, hfs]

/-- Witness for `mate_ratio_survival`: with `evRatio`, both moves of
`bTwo` lose to mate and the best-move query answers `42`, which both
selectors play. -/
theorem mate_ratio_survival_witness :
    (stTwo.get 0).check = false ∧ (stTwo.get 0).legal ≠ [] ∧
    (stTwo.get 0).legal.length <
      4 * strictMateLossCount evRatio mainDefaults (stTwo.get 0) (stTwo.get 0).legal ∧
    (MainPy.pick_worst_survivable_move evRatio mainDefaults 0 stTwo 0).result =
      some 42 ∧
    (BotPy.pick_worst_survivable_move evRatio mainDefaults 0 stTwo 0).result =
      some 42 :=
  ⟨by decide, by decide, by decide,
   (mate_ratio_survival evRatio mainDefaults 0 stTwo 0
     (by decide) (by decide) (by decide) (by decide) (by decide)).1
     42 (by decide)⟩

/-- C8 is false as stated: with a deterministic evaluator whose queries
all fail, two calls on the same in-check position with different states
of the global random generator return different moves, so the result is
not a function of position, configuration and evaluator alone. -/
theorem idempotence_cex :
    (MainPy.pick_worst_survivable_move evFailAll mainDefaults 0 stCheck 0).result ≠
    (MainPy.pick_worst_survivable_move evFailAll mainDefaults 1 stCheck 0).result := by
  decide

/-- C8 (amended): the selector is a deterministic function of position,
configuration, evaluator behaviour and the random stream; whenever the
evaluator's best-move query on the position at `eval_depth` succeeds,
no `random.choice` fallback is reachable and the result is independent
of the random stream. -/
theorem deterministic_of_best_available (ev : Evaluator) (cfg : Config)
    (s0 : Store) (bid : Nat)
    (hb : bid < s0.boards.length)
    (hbest : (ev.best (s0.get bid) cfg.evalDepth).isSome = true) :
    ∀ r1 r2, MainPy.pick_worst_survivable_move ev cfg r1 s0 bid =
      MainPy.pick_worst_survivable_move ev cfg r2 s0 bid := by
  rcases Option.isSome_iff_exists.mp hbest with ⟨m, hm⟩
  intro r1 r2
  by_cases hleg : (s0.get bid).legal = []
  · simp [MainPy.pick_worst_survivable_move, hleg]
  · by_cases hchk : (s0.get bid).check = true
    · simp [MainPy.pick_worst_survivable_move, hleg, hchk, hm]
    · have hchk' : (s0.get bid).check = false := by simpa using hchk
      rw [main_pick_eq ev cfg r1 s0 bid hb hchk' hleg,
          main_pick_eq ev cfg r2 s0 bid hb hchk' hleg]
      simp only [candidateStage, hm]

/-- Witness for `deterministic_of_best_available`: with `evCand` the
best-move query succeeds and draws `0` and `1` give the same output. -/
theorem deterministic_of_best_available_witness :
    (evCand.best (stTwo.get 0) mainDefaults.evalDepth).isSome = true ∧
    MainPy.pick_worst_survivable_move evCand mainDefaults 0 stTwo 0 =
      MainPy.pick_worst_survivable_move evCand mainDefaults 1 stTwo 0 :=
  ⟨by decide,
   deterministic_of_best_available evCand mainDefaults stTwo 0
     (by decide) (by decide) 0 1⟩

/-- C10 is false as stated: with identical explicit configuration and
the same deterministic evaluator, at a position where the mate-loss
ratio fires and the best-move query fails, `main.py` returns the
rng-selected legal move (move `0`) while `bot.py` falls through and
returns the surviving worst candidate (move `2`). -/
theorem implementations_equivalent_cex :
    (MainPy.pick_worst_survivable_move evDiverge mainDefaults 0 stThree 0).result ≠
    (BotPy.pick_worst_survivable_move evDiverge mainDefaults 0 stThree 0).result := by
  have hq : ((mateLossCount evDiverge mainDefaults (stThree.get 0)
      (stThree.get 0).legal : ℚ) /
      ((stThree.get 0).legal.length : ℚ) > 0.25) :=
    ratio_gt _ _ (by decide) (by decide)
  have hwa : winningAfter evDiverge mainDefaults (stThree.get 0) none
      (stThree.get 0).legal = none := by decide
  have hbm : evDiverge.best (stThree.get 0) mainDefaults.evalDepth = none := rfl
  rw [main_pick_eq evDiverge mainDefaults 0 stThree 0
        (by decide) (by decide) (by decide),
      bot_pick_eq evDiverge mainDefaults 0 stThree 0
        (by decide) (by decide) (by decide)]
  simp only [hwa, if_pos hq, hbm]
  decide

/-- C10 (amended): called with the same position, the same explicit
configuration and the same evaluator behaviour, the two implementations
return the same result whenever the mate-loss-ratio rule does not fire
with a failing best-move query: that is, whenever the best-move query
on the position succeeds or at most a quarter of the legal moves lose
to mate.  (Their keyword defaults also differ: `eval_depth` is 16 in
`main.py` and 10 in `bot.py`.) -/
theorem implementations_agree (ev : Evaluator) (cfg : Config)
    (rng : Nat) (s0 : Store) (bid : Nat)
    (hb : bid < s0.boards.length)
    (h : (ev.best (s0.get bid) cfg.evalDepth).isSome = true ∨
      4 * mateLossCount ev cfg (s0.get bid) (s0.get bid).legal ≤
        (s0.get bid).legal.length) :
    MainPy.pick_worst_survivable_move ev cfg rng s0 bid =
      BotPy.pick_worst_survivable_move ev cfg rng s0 bid := by
  by_cases hleg : (s0.get bid).legal = []
  · simp [MainPy.pick_worst_survivable_move, BotPy.pick_worst_survivable_move,
      hleg]
  · by_cases hchk : (s0.get bid).check = true
    · simp [MainPy.pick_worst_survivable_move, BotPy.pick_worst_survivable_move,
        hleg, hchk]
    · have hchk' : (s0.get bid).check = false := by simpa using hchk
      rw [main_pick_eq ev cfg rng s0 bid hb hchk' hleg,
          bot_pick_eq ev cfg rng s0 bid hb hchk' hleg]
      rcases hwa : winningAfter ev cfg (s0.get bid) none (s0.get bid).legal
        with _ | w
      · simp only [hwa]
        by_cases hrt : ((mateLossCount ev cfg (s0.get bid) (s0.get bid).legal : ℚ) /
            (((s0.get bid).legal.length : Nat) : ℚ) > 0.25)
        · rcases h with hbs | hrn
          · rcases Option.isSome_iff_exists.mp hbs with ⟨m, hm⟩
            simp only [if_pos hrt, hm]
          · exact absurd hrt (ratio_not_gt _ _ hrn)
        · simp only [if_neg hrt, List.nil_append]
      · simp only [hwa]

/-- Witness for `implementations_agree` at the concrete two-candidate
position with a succeeding best-move query. -/
theorem implementations_agree_witness :
    ((evCand.best (stTwo.get 0) mainDefaults.evalDepth).isSome = true ∨
      4 * mateLossCount evCand mainDefaults (stTwo.get 0) (stTwo.get 0).legal ≤
        (stTwo.get 0).legal.length) ∧
    MainPy.pick_worst_survivable_move evCand mainDefaults 0 stTwo 0 =
      BotPy.pick_worst_survivable_move evCand mainDefaults 0 stTwo 0 :=
  ⟨Or.inl (by decide),
   implementations_agree evCand mainDefaults 0 stTwo 0 (by decide)
     (Or.inl (by decide))⟩
